import Mathlib

/-!
Verification of the Trackup session and offline-sync engine.

The definitions below are a shallow embedding of the Rust sources in
`src-tauri/src/db.rs`, `src-tauri/src/lib.rs` and `src-tauri/src/screenshot.rs`.
The SQLite database is modelled as lists of rows; each SQL statement is
translated into the corresponding pure list transformation.  Timestamps are
milliseconds represented as `Int` (the Rust code uses `i64`); fresh uuid
strings and "now" timestamps, which the Rust code obtains from the
environment, are passed as explicit parameters.
-/

namespace Trackup

/-- Row of the `projects` table (`models.rs::Project`). -/
structure Project where
  id : String
  name : String
deriving Repr, DecidableEq

/-- Row of the `users` table together with its project list
(`models.rs::User`, as read back by `db.rs::get_user`). -/
structure User where
  uuid : String
  name : String
  email : String
  token : String
  currentProjectId : Option String
  projects : List Project
deriving Repr, DecidableEq

/-- Row of the `sessions` table (`models.rs::Session`).  `id` is the SQLite
`INTEGER PRIMARY KEY AUTOINCREMENT` rowid. -/
structure Session where
  id : Int
  uuid : String
  projectId : String
  startTime : Int
  endTime : Option Int
  isActive : Bool
  idleSeconds : Int
  deductedSeconds : Int
  status : String
  keyboardEvents : Int
  mouseEvents : Int
deriving Repr, DecidableEq

/-- Row of the `pending_screenshots` table. -/
structure PendingScreenshot where
  id : Int
  sessionUuid : String
  projectId : String
  timestamp : Int
  imageData : String
deriving Repr, DecidableEq

/-- Row of the `activity_logs` table. -/
structure ActivityLog where
  id : Int
  sessionUuid : String
  projectId : String
  timestamp : Int
  appName : String
  windowTitle : String
  url : Option String
deriving Repr, DecidableEq

/-- Wire representation of a remote session (`models.rs::SyncSession`),
restricted to the fields the reconciliation code reads. -/
structure SyncSession where
  uuid : String
  projectId : String
  startTime : Int
  endTime : Option Int
  isActive : Bool
  idleSeconds : Int
  deductedSeconds : Int
deriving Repr, DecidableEq

/-- The local SQLite database state.  Lists keep row order (SQLite scan
order for the unordered queries the code issues); `nextSessionId` models the
AUTOINCREMENT counter of the `sessions` table. -/
structure DB where
  users : List User
  projects : List Project
  sessions : List Session
  pendingScreenshots : List PendingScreenshot
  activityLogs : List ActivityLog
  nextSessionId : Int
deriving Repr, DecidableEq

/-- `db.rs::get_user`: `SELECT ... FROM users LIMIT 1`. -/
def get_user (db : DB) : Option User :=
  db.users.head?

/-- `db.rs::get_session_by_uuid`: first row with the given uuid. -/
def get_session_by_uuid (db : DB) (uuid : String) : Option Session :=
  (db.sessions.filter (fun s => s.uuid == uuid)).head?

/-- `db.rs::get_active_session`:
`SELECT ... WHERE project_id = ?1 AND is_active = 1 LIMIT 1`. -/
def get_active_session (db : DB) (projectId : String) : Option Session :=
  (db.sessions.filter (fun s => s.projectId == projectId && s.isActive)).head?

/-- `db.rs::start_session`: inserts a fresh active pending session with all
counters zero.  The fresh uuid and the `Local::now()` timestamp are passed in. -/
def start_session (db : DB) (projectId : String) (now : Int) (uuid : String) : DB :=
  { db with
    sessions := db.sessions ++
      [{ id := db.nextSessionId, uuid := uuid, projectId := projectId,
         startTime := now, endTime := none, isActive := true,
         idleSeconds := 0, deductedSeconds := 0, status := "pending",
         keyboardEvents := 0, mouseEvents := 0 }],
    nextSessionId := db.nextSessionId + 1 }

/-- `db.rs::stop_session`:
`UPDATE sessions SET is_active = 0, end_time = now WHERE project_id = ? AND is_active = 1`. -/
def stop_session (db : DB) (projectId : String) (now : Int) : DB :=
  { db with
    sessions := db.sessions.map (fun s =>
      if s.projectId == projectId && s.isActive then
        { s with isActive := false, endTime := some now }
      else s) }

/-- `db.rs::create_imported_session`: inserts the remote session with
status `'done'`, zero event counters, and the remote `is_active` flag. -/
def create_imported_session (db : DB) (ss : SyncSession) : DB :=
  { db with
    sessions := db.sessions ++
      [{ id := db.nextSessionId, uuid := ss.uuid, projectId := ss.projectId,
         startTime := ss.startTime, endTime := ss.endTime, isActive := ss.isActive,
         idleSeconds := ss.idleSeconds, deductedSeconds := ss.deductedSeconds,
         status := "done", keyboardEvents := 0, mouseEvents := 0 }],
    nextSessionId := db.nextSessionId + 1 }

/-- `db.rs::update_imported_session`: overwrites start/end/active/idle/deducted
and sets status `'done'` on every row with the given uuid; event counters and
the rowid are untouched. -/
def update_imported_session (db : DB) (ss : SyncSession) : DB :=
  { db with
    sessions := db.sessions.map (fun s =>
      if s.uuid == ss.uuid then
        { s with startTime := ss.startTime, endTime := ss.endTime,
                 isActive := ss.isActive, idleSeconds := ss.idleSeconds,
                 deductedSeconds := ss.deductedSeconds, status := "done" }
      else s) }

/-- `db.rs::update_session_heartbeat`:
`UPDATE sessions SET end_time = now, keyboard_events = k, mouse_events = m WHERE id = ?`. -/
def update_session_heartbeat (db : DB) (sessionId : Int) (now k m : Int) : DB :=
  { db with
    sessions := db.sessions.map (fun s =>
      if s.id == sessionId then
        { s with endTime := some now, keyboardEvents := k, mouseEvents := m }
      else s) }

/-- `db.rs::get_pending_sessions`.  The SQL in the source is
`SELECT id, uuid, ... FROM sessions` with no `WHERE` clause at all, so every
row of the table is returned, whatever its `status`. -/
def get_pending_sessions (db : DB) : List Session :=
  db.sessions

/-- `db.rs::get_pending_screenshots`: reads the whole table. -/
def get_pending_screenshots (db : DB) : List PendingScreenshot :=
  db.pendingScreenshots

/-- `db.rs::clear_user`: `DELETE FROM projects; DELETE FROM users; DELETE FROM sessions`. -/
def clear_user (db : DB) : DB :=
  { db with users := [], projects := [], sessions := [] }

/-- `db.rs::delete_activity_logs_for_session`:
`DELETE FROM activity_logs WHERE session_uuid = ?`. -/
def delete_activity_logs_for_session (db : DB) (uuid : String) : DB :=
  { db with activityLogs := db.activityLogs.filter (fun l => !(l.sessionUuid == uuid)) }

/-- `db.rs::get_today_total_time`, given the precomputed start-of-day and
current timestamps (the Rust code reads them from the local clock).  The SQL
filter is `project_id = ? AND start_time >= start_of_day`; the Rust loop then
accumulates, per row, the duration in milliseconds (using `now` for an active
row, the stored end for a closed row, `0` when the comparison fails), divides
by 1000, subtracts `deducted_seconds` and clamps at zero.  `todayAddend` is
that per-row loop body. -/
def todayAddend (s : Session) (now : Int) : Int :=
  let durMillis : Int :=
    if s.isActive then
      (if now > s.startTime then now - s.startTime else 0)
    else
      match s.endTime with
      | some e => if e > s.startTime then e - s.startTime else 0
      | none => 0
  let secs := durMillis / 1000 - s.deductedSeconds
  if secs < 0 then 0 else secs

/-- `db.rs::get_today_total_time`: the SQL-filtered rows folded with the
per-row addend. -/
def get_today_total_time (db : DB) (projectId : String) (startOfDay now : Int) : Int :=
  (db.sessions.filter (fun s =>
      s.projectId == projectId && decide (startOfDay ≤ s.startTime))).foldl
    (fun total s => total + todayAddend s now) 0

/-- `lib.rs::start_timer_internal`: looks up the cached user and their current
project; if no session is active for that project, starts one (the tray/loop
side effects are outside the store and not modelled). -/
def start_timer_internal (db : DB) (now : Int) (fresh : String) : DB :=
  match get_user db with
  | none => db
  | some u =>
    match u.currentProjectId with
    | none => db
    | some pid =>
      match get_active_session db pid with
      | some _ => db
      | none => start_session db pid now fresh

/-- `lib.rs::stop_timer_internal`: stops the active session of the user's
current project, if a user with a current project is cached. -/
def stop_timer_internal (db : DB) (now : Int) : DB :=
  match get_user db with
  | none => db
  | some u =>
    match u.currentProjectId with
    | none => db
    | some pid => stop_session db pid now

/-- The subquery of `lib.rs::process_idle_choice`:
`SELECT id FROM sessions WHERE project_id = ? ORDER BY start_time DESC LIMIT 1`.
Ties on `start_time` resolve to the first row in scan order. -/
def latestSession (db : DB) (pid : String) : Option Session :=
  (db.sessions.filter (fun s => s.projectId == pid)).foldl
    (fun acc s =>
      match acc with
      | none => some s
      | some b => if s.startTime > b.startTime then some s else some b)
    none

/-- `lib.rs::process_idle_choice`: adds the idle gap to `idle_seconds` of the
most recently started session of the user's current project, adds it to
`deducted_seconds` as well when the user chose to discard, then restarts the
timer via `start_timer_internal`. -/
def process_idle_choice (db : DB) (idleTime : Int) (keep : Bool) (now : Int)
    (fresh : String) : DB :=
  match get_user db with
  | none => db
  | some u =>
    match u.currentProjectId with
    | none => db
    | some pid =>
      let incIdle := idleTime
      let incDeducted := if !keep then idleTime else 0
      let db1 :=
        match latestSession db pid with
        | none => db
        | some target =>
          { db with
            sessions := db.sessions.map (fun s =>
              if s.id == target.id then
                { s with idleSeconds := s.idleSeconds + incIdle,
                         deductedSeconds := s.deductedSeconds + incDeducted }
              else s) }
      start_timer_internal db1 now fresh

/-- The rotation threshold of the tray heartbeat thread in `lib.rs::run`:
`10 * 60 * 1000` milliseconds. -/
def rotationThresholdMillis : Int := 10 * 60 * 1000

/-- One iteration of the per-second heartbeat thread in `lib.rs::run`, for the
case where a user with current project `pid` is cached.  If an active session
exists and `now - start >= 10 minutes`, the session is stopped, a fresh one is
started, the in-memory keyboard/mouse counters are reset to zero, and the
heartbeat is applied to the new active session (with the just-reset counters,
hence `0, 0`); otherwise the heartbeat writes `end_time = nowHb` and the
current counters `k, m` to the existing active session.  `nowHb` is the
`Local::now()` read inside `update_session_heartbeat`. -/
def heartbeatTick (db : DB) (pid : String) (now : Int) (fresh : String)
    (k m nowHb : Int) : DB :=
  match get_active_session db pid with
  | none => db
  | some s =>
    if now - s.startTime ≥ rotationThresholdMillis then
      let db1 := stop_session db pid now
      let db2 := start_session db1 pid now fresh
      match get_active_session db2 pid with
      | some s2 => update_session_heartbeat db2 s2.id nowHb 0 0
      | none => db2
    else
      update_session_heartbeat db s.id nowHb k m

/-! ### Sync engine (`screenshot.rs`) -/

/-- Outcome of one HTTP request as the sync code distinguishes them:
2xx, 401, any other status, or a transport error. -/
inductive HttpOutcome where
  | success
  | unauthorized
  | otherStatus
  | netError
deriving Repr, DecidableEq

/-- Outcome of the token-refresh request in
`screenshot.rs::upload_pending_screenshots`: success with a `token` field in
the JSON body, success without one, a non-success status, or a transport
error. -/
inductive RefreshOutcome where
  | okToken (token : String)
  | okNoToken
  | badStatus
  | netError
deriving Repr, DecidableEq

/-- Observable result of the bulk-session-upload step of one sync cycle. -/
structure BulkSyncResult where
  syncedUuids : List String
  persistedToken : Option String
  refreshAttempts : Nat
  retryAttempts : Nat
  logoutEmitted : Bool
  userCleared : Bool
  abortedCycle : Bool
deriving Repr, DecidableEq

/-- The bulk session upload of `screenshot.rs::upload_pending_screenshots`
(lines 178-313), as a function of the pending batch and of the responses the
network returns for the first POST, the refresh POST and the retried POST.
Mirrors the source control flow: on 2xx every batch uuid is collected as
synced; on 401 one refresh is attempted, and only a refresh response with a
non-success status leads to the logout/clear/abort branch; a refresh transport
error, a missing `token` field, or a failed retry leave the batch unsynced and
fall through to the screenshot upload step. -/
def bulkSessionSync (pending : List Session) (first : HttpOutcome)
    (refresh : RefreshOutcome) (retry : HttpOutcome) : BulkSyncResult :=
  if pending.isEmpty then
    { syncedUuids := [], persistedToken := none, refreshAttempts := 0,
      retryAttempts := 0, logoutEmitted := false, userCleared := false,
      abortedCycle := false }
  else
    match first with
    | .success =>
      { syncedUuids := pending.map (fun s => s.uuid), persistedToken := none,
        refreshAttempts := 0, retryAttempts := 0, logoutEmitted := false,
        userCleared := false, abortedCycle := false }
    | .unauthorized =>
      match refresh with
      | .okToken t =>
        match retry with
        | .success =>
          { syncedUuids := pending.map (fun s => s.uuid),
            persistedToken := some t, refreshAttempts := 1, retryAttempts := 1,
            logoutEmitted := false, userCleared := false, abortedCycle := false }
        | _ =>
          { syncedUuids := [], persistedToken := some t, refreshAttempts := 1,
            retryAttempts := 1, logoutEmitted := false, userCleared := false,
            abortedCycle := false }
      | .okNoToken =>
        { syncedUuids := [], persistedToken := none, refreshAttempts := 1,
          retryAttempts := 0, logoutEmitted := false, userCleared := false,
          abortedCycle := false }
      | .badStatus =>
        { syncedUuids := [], persistedToken := none, refreshAttempts := 1,
          retryAttempts := 0, logoutEmitted := true, userCleared := true,
          abortedCycle := true }
      | .netError =>
        { syncedUuids := [], persistedToken := none, refreshAttempts := 1,
          retryAttempts := 0, logoutEmitted := false, userCleared := false,
          abortedCycle := false }
    | .otherStatus =>
      { syncedUuids := [], persistedToken := none, refreshAttempts := 0,
        retryAttempts := 0, logoutEmitted := false, userCleared := false,
        abortedCycle := false }
    | .netError =>
      { syncedUuids := [], persistedToken := none, refreshAttempts := 0,
        retryAttempts := 0, logoutEmitted := false, userCleared := false,
        abortedCycle := false }

/-- The per-screenshot upload step (`screenshot.rs` lines 315-380): each
pending screenshot is POSTed independently and the ids whose response was 2xx
are collected, in row order.  `ok` gives the response for each screenshot id. -/
def screenshotUploadResults (pending : List PendingScreenshot)
    (ok : Int → Bool) : List Int :=
  (pending.filter (fun sc => ok sc.id)).map (fun sc => sc.id)

/-- `UPDATE sessions SET status = 'done' WHERE uuid = ?` from the commit
transaction of `screenshot.rs::upload_pending_screenshots`. -/
def markSessionDone (db : DB) (uuid : String) : DB :=
  { db with
    sessions := db.sessions.map (fun s =>
      if s.uuid == uuid then { s with status := "done" } else s) }

/-- `DELETE FROM pending_screenshots WHERE id = ?` from the commit
transaction. -/
def delete_screenshot (db : DB) (id : Int) : DB :=
  { db with pendingScreenshots := db.pendingScreenshots.filter (fun sc => !(sc.id == id)) }

/-- The commit transaction of `screenshot.rs::upload_pending_screenshots`
(lines 382-405): inside one transaction, for every synced uuid the session is
marked done and its activity logs deleted, then every uploaded screenshot id
is deleted. -/
def commitSync (db : DB) (syncedUuids : List String) (uploadedIds : List Int) : DB :=
  let db1 := syncedUuids.foldl
    (fun d u => delete_activity_logs_for_session (markSessionDone d u) u) db
  uploadedIds.foldl (fun d i => delete_screenshot d i) db1

/-! ### Pull reconciliation (`screenshot.rs::sync_daily_sessions`) -/

/-- Rust `i64::saturating_sub`. -/
def satSub64 (a b : Int) : Int :=
  max (min (a - b) (2 ^ 63 - 1)) (-(2 ^ 63))

/-- The local-side estimated duration computed by `sync_daily_sessions`:
`end - start` (saturating), with `now` substituted when the local end is
missing. -/
def localEstimatedDuration (s : Session) (now : Int) : Int :=
  match s.endTime with
  | some e => satSub64 e s.startTime
  | none => satSub64 now s.startTime

/-- The server-side estimated duration computed by `sync_daily_sessions`:
`end - start` (saturating) when the remote end is present, and `0` — not
"now minus start" — when the remote end is missing. -/
def serverEstimatedDuration (ss : SyncSession) : Int :=
  match ss.endTime with
  | some e => satSub64 e ss.startTime
  | none => 0

/-- Merge of one remote session in `sync_daily_sessions`: if no local row
has the remote uuid, insert it as an imported (done) row; otherwise overwrite
the local row exactly when the server duration is strictly greater. -/
def reconcileSession (db : DB) (ss : SyncSession) (now : Int) : DB :=
  match get_session_by_uuid db ss.uuid with
  | some loc =>
    if serverEstimatedDuration ss > localEstimatedDuration loc now then
      update_imported_session db ss
    else db
  | none => create_imported_session db ss

/-! ### Invariants from the specification -/

/-- At most one `active` session row per project (spec section 3). -/
def activeInv (db : DB) : Prop :=
  ∀ pid : String,
    ((db.sessions.filter (fun s => s.projectId == pid && s.isActive)).length ≤ 1)

/-- `deducted_seconds ≤ idle_seconds` on every session row (spec section 8). -/
def deductedLeIdle (db : DB) : Prop :=
  ∀ s ∈ db.sessions, s.deductedSeconds ≤ s.idleSeconds

/-! ### The today-total as the specification words it -/

/-- The today-total as claim C9 words it: the sum ranges only over sessions
whose start timestamp falls within the current local calendar day, i.e.
`startOfDay ≤ start < startOfDay + 86400000`.  (The source's SQL has no upper
bound; see `get_today_total_time`.) -/
def today_total_claim (db : DB) (projectId : String) (startOfDay now : Int) : Int :=
  ((db.sessions.filter (fun s =>
      s.projectId == projectId && decide (startOfDay ≤ s.startTime) &&
        decide (s.startTime < startOfDay + 86400000))).map
    (fun s =>
      let durMillis : Int :=
        if s.isActive then
          (if now > s.startTime then now - s.startTime else 0)
        else
          match s.endTime with
          | some e => if e > s.startTime then e - s.startTime else 0
          | none => 0
      max 0 (durMillis / 1000 - s.deductedSeconds))).sum

/-- The remote estimated duration as claim C2 words it: `end − start` with
"now" substituted for a missing remote end.  (The source instead uses `0`
for a missing remote end; see `serverEstimatedDuration`.) -/
def serverEstimatedDuration_claim (ss : SyncSession) (now : Int) : Int :=
  match ss.endTime with
  | some e => satSub64 e ss.startTime
  | none => satSub64 now ss.startTime

/-! ### Concrete fixtures used by counterexamples and witnesses -/

/-- A session row already marked `done`. -/
def doneSessionA : Session :=
  { id := 1, uuid := "u1", projectId := "p", startTime := 0,
    endTime := some 1000, isActive := false, idleSeconds := 0,
    deductedSeconds := 0, status := "done", keyboardEvents := 0,
    mouseEvents := 0 }

/-- A database whose only session row is already synced (`status = 'done'`). -/
def dbDoneOnly : DB :=
  { users := [], projects := [], sessions := [doneSessionA],
    pendingScreenshots := [], activityLogs := [], nextSessionId := 2 }

/-- A closed local session of 100 ms worked time, uuid `"s"`. -/
def localShort : Session :=
  { id := 1, uuid := "s", projectId := "p", startTime := 0,
    endTime := some 100, isActive := false, idleSeconds := 0,
    deductedSeconds := 0, status := "pending", keyboardEvents := 0,
    mouseEvents := 0 }

/-- A database holding only `localShort`. -/
def dbLocalShort : DB :=
  { users := [], projects := [], sessions := [localShort],
    pendingScreenshots := [], activityLogs := [], nextSessionId := 2 }

/-- A remote session with the same uuid `"s"` but no end timestamp. -/
def remoteOpen : SyncSession :=
  { uuid := "s", projectId := "p", startTime := 0, endTime := none,
    isActive := true, idleSeconds := 0, deductedSeconds := 0 }

/-- An active local session for project `"p"`. -/
def activeSessionA : Session :=
  { id := 1, uuid := "a", projectId := "p", startTime := 0,
    endTime := none, isActive := true, idleSeconds := 0,
    deductedSeconds := 0, status := "pending", keyboardEvents := 0,
    mouseEvents := 0 }

/-- A database holding only the active session `activeSessionA`. -/
def dbOneActive : DB :=
  { users := [], projects := [], sessions := [activeSessionA],
    pendingScreenshots := [], activityLogs := [], nextSessionId := 2 }

/-- A remote session, active, for the same project `"p"` but a different
uuid. -/
def remoteActiveB : SyncSession :=
  { uuid := "b", projectId := "p", startTime := 0, endTime := none,
    isActive := true, idleSeconds := 0, deductedSeconds := 0 }

/-- The empty database. -/
def dbEmpty : DB :=
  { users := [], projects := [], sessions := [], pendingScreenshots := [],
    activityLogs := [], nextSessionId := 1 }

/-- A remote session carrying `deducted_seconds > idle_seconds`. -/
def remoteBadBookkeeping : SyncSession :=
  { uuid := "c", projectId := "p", startTime := 0, endTime := some 1000,
    isActive := false, idleSeconds := 0, deductedSeconds := 5 }

/-- A closed one-second session whose start lies far outside the current
local calendar day (`86400000` ms per day, start at `100000000`). -/
def futureSession : Session :=
  { id := 1, uuid := "f", projectId := "p", startTime := 100000000,
    endTime := some 100001000, isActive := false, idleSeconds := 0,
    deductedSeconds := 0, status := "pending", keyboardEvents := 0,
    mouseEvents := 0 }

/-- A database holding only `futureSession`. -/
def dbFuture : DB :=
  { users := [], projects := [], sessions := [futureSession],
    pendingScreenshots := [], activityLogs := [], nextSessionId := 2 }

/-- A cached user whose current project is `"p"`. -/
def userP : User :=
  { uuid := "user1", name := "n", email := "e", token := "tok",
    currentProjectId := some "p", projects := [{ id := "p", name := "P" }] }

/-- A remote session with uuid `"s"` and 300 ms of estimated duration. -/
def remoteLong : SyncSession :=
  { uuid := "s", projectId := "p", startTime := 0, endTime := some 300,
    isActive := false, idleSeconds := 2, deductedSeconds := 1 }

/-- A database with the cached user `userP` and one active session for
project `"p"`. -/
def dbUserActive : DB :=
  { users := [userP], projects := [{ id := "p", name := "P" }],
    sessions := [activeSessionA], pendingScreenshots := [],
    activityLogs := [], nextSessionId := 2 }

/-! ## Helper lemmas -/

theorem length_filter_map_le {α : Type} (f : α → α) (p : α → Bool) (l : List α)
    (h : ∀ a, p (f a) = true → p a = true) :
    ((l.map f).filter p).length ≤ (l.filter p).length := by
  induction l with
  | nil => simp
  | cons a t ih =>
    simp only [List.map_cons, List.filter_cons]
    by_cases hfa : p (f a) = true
    · rw [hfa, h a hfa]
      simpa using Nat.succ_le_succ ih
    · rw [Bool.not_eq_true] at hfa
      rw [hfa]
      cases hpa : p a
      · simpa using ih
      · simpa using Nat.le_succ_of_le ih

theorem map_eq_self_of_fix {α : Type} (f : α → α) (l : List α)
    (h : ∀ a ∈ l, f a = a) : l.map f = l := by
  induction l with
  | nil => rfl
  | cons a t ih =>
    simp only [List.map_cons]
    rw [h a (List.mem_cons_self a t), ih (fun b hb => h b (List.mem_cons_of_mem a hb))]

theorem map_map_eq_map {α : Type} (f g h : α → α) (l : List α)
    (hp : ∀ a, g (f a) = h a) : (l.map f).map g = l.map h := by
  induction l with
  | nil => rfl
  | cons a t ih => simp [hp, ih]

theorem filter_filter_eq_filter {α : Type} (p q r : α → Bool) (l : List α)
    (h : ∀ a, (p a && q a) = r a) : (l.filter p).filter q = l.filter r := by
  induction l with
  | nil => rfl
  | cons a t ih =>
    have ha := h a
    cases hp : p a <;> cases hq : q a <;>
      rw [hp] at ha <;> rw [hq] at ha <;>
        simp only [Bool.false_and, Bool.true_and] at ha <;>
          simp [List.filter_cons, hp, hq, ← ha, ih]

/-- A session returned by `get_active_session` is a row of the table, belongs
to the requested project and is active. -/
theorem get_active_session_mem {db : DB} {pid : String} {s : Session}
    (h : get_active_session db pid = some s) :
    s ∈ db.sessions ∧ s.projectId = pid ∧ s.isActive = true := by
  unfold get_active_session at h
  have hmem : s ∈ db.sessions.filter (fun t => t.projectId == pid && t.isActive) :=
    List.mem_of_mem_head? h
  rw [List.mem_filter] at hmem
  have hpred := hmem.2
  simp only [Bool.and_eq_true, beq_iff_eq] at hpred
  exact ⟨hmem.1, hpred.1, hpred.2⟩

/-- After `stop_session db pid now` no session of project `pid` is active. -/
theorem get_active_session_stop (db : DB) (pid : String) (now : Int) :
    get_active_session (stop_session db pid now) pid = none := by
  unfold get_active_session stop_session
  rw [List.head?_eq_none_iff, List.filter_eq_nil_iff]
  intro a ha
  rcases List.mem_map.mp ha with ⟨b, _, rfl⟩
  by_cases hb : (b.projectId == pid && b.isActive) = true
  · rw [if_pos hb]
    simp
  · rw [if_neg hb]
    simpa using hb

/-- When no session of project `pid` is active, `start_session` makes its
fresh row the (unique) active session of `pid`. -/
theorem get_active_session_start (db : DB) (pid : String) (now : Int)
    (fresh : String) (h : get_active_session db pid = none) :
    get_active_session (start_session db pid now fresh) pid =
      some { id := db.nextSessionId, uuid := fresh, projectId := pid,
             startTime := now, endTime := none, isActive := true,
             idleSeconds := 0, deductedSeconds := 0, status := "pending",
             keyboardEvents := 0, mouseEvents := 0 } := by
  unfold get_active_session at h ⊢
  rw [List.head?_eq_none_iff] at h
  unfold start_session
  rw [List.filter_append, h]
  simp

/-- A row-wise update that never turns a row into an active row of a project
it was not already an active row of preserves the single-active invariant. -/
theorem activeInv_map (db : DB) (f : Session → Session)
    (h : ∀ pid : String, ∀ a : Session,
        ((f a).projectId == pid && (f a).isActive) = true →
        (a.projectId == pid && a.isActive) = true)
    (hinv : activeInv db) :
    activeInv { db with sessions := db.sessions.map f } := by
  intro pid
  exact le_trans (length_filter_map_le f _ db.sessions (h pid)) (hinv pid)

theorem activeInv_stop_session (db : DB) (pid : String) (now : Int)
    (hinv : activeInv db) : activeInv (stop_session db pid now) := by
  unfold stop_session
  refine activeInv_map db _ ?_ hinv
  intro pid2 a hfa
  by_cases hc : (a.projectId == pid && a.isActive) = true
  · rw [if_pos hc] at hfa
    simp at hfa
  · rw [if_neg hc] at hfa
    exact hfa

theorem activeInv_update_heartbeat (db : DB) (sid now k m : Int)
    (hinv : activeInv db) :
    activeInv (update_session_heartbeat db sid now k m) := by
  unfold update_session_heartbeat
  refine activeInv_map db _ ?_ hinv
  intro pid2 a hfa
  by_cases hc : (a.id == sid) = true
  · rw [if_pos hc] at hfa
    exact hfa
  · rw [if_neg hc] at hfa
    exact hfa

theorem activeInv_start_session (db : DB) (pid : String) (now : Int)
    (fresh : String) (hinv : activeInv db)
    (hnone : get_active_session db pid = none) :
    activeInv (start_session db pid now fresh) := by
  unfold get_active_session at hnone
  rw [List.head?_eq_none_iff] at hnone
  intro pid2
  unfold start_session
  rw [List.filter_append, List.length_append]
  by_cases hp : pid2 = pid
  · subst hp
    rw [hnone]
    simp [List.filter]
  · have hne : ¬ pid = pid2 := fun heq => hp heq.symm
    have hsingle : List.filter (fun s => s.projectId == pid2 && s.isActive)
        [({ id := db.nextSessionId, uuid := fresh, projectId := pid,
            startTime := now, endTime := none, isActive := true,
            idleSeconds := 0, deductedSeconds := 0, status := "pending",
            keyboardEvents := 0, mouseEvents := 0 } : Session)] = [] := by
      have hbeq : (pid == pid2) = false := beq_eq_false_iff_ne.mpr hne
      simp [List.filter, hbeq]
    rw [hsingle]
    simpa using hinv pid2

theorem activeInv_start_timer (db : DB) (now : Int) (fresh : String)
    (hinv : activeInv db) : activeInv (start_timer_internal db now fresh) := by
  unfold start_timer_internal
  cases hu : get_user db with
  | none => exact hinv
  | some u =>
    dsimp only
    cases hpid : u.currentProjectId with
    | none => exact hinv
    | some pid =>
      dsimp only
      cases hact : get_active_session db pid with
      | some s => exact hinv
      | none => exact activeInv_start_session db pid now fresh hinv hact

theorem activeInv_stop_timer (db : DB) (now : Int) (hinv : activeInv db) :
    activeInv (stop_timer_internal db now) := by
  unfold stop_timer_internal
  cases hu : get_user db with
  | none => exact hinv
  | some u =>
    dsimp only
    cases hpid : u.currentProjectId with
    | none => exact hinv
    | some pid => exact activeInv_stop_session db pid now hinv

/-- The heartbeat write applied to whichever session is active (the trailing
match of the rotation branch of `heartbeatTick`) preserves the invariant. -/
theorem activeInv_heartbeat_match (db : DB) (pid : String) (nowHb : Int)
    (hinv : activeInv db) :
    activeInv (match get_active_session db pid with
               | some s2 => update_session_heartbeat db s2.id nowHb 0 0
               | none => db) := by
  cases hact : get_active_session db pid with
  | none => exact hinv
  | some s2 =>
    dsimp only
    exact activeInv_update_heartbeat _ _ _ _ _ hinv

theorem activeInv_heartbeatTick (db : DB) (pid : String) (now : Int)
    (fresh : String) (k m nowHb : Int) (hinv : activeInv db) :
    activeInv (heartbeatTick db pid now fresh k m nowHb) := by
  unfold heartbeatTick
  cases hact : get_active_session db pid with
  | none => exact hinv
  | some s =>
    dsimp only
    by_cases hdur : now - s.startTime ≥ rotationThresholdMillis
    · rw [if_pos hdur]
      have hstop := activeInv_stop_session db pid now hinv
      have hnone := get_active_session_stop db pid now
      have hstart := activeInv_start_session _ pid now fresh hstop hnone
      exact activeInv_heartbeat_match
        (start_session (stop_session db pid now) pid now fresh) pid nowHb hstart
    · rw [if_neg hdur]
      exact activeInv_update_heartbeat _ _ _ _ _ hinv

theorem activeInv_process_idle (db : DB) (idleTime : Int) (keep : Bool)
    (now : Int) (fresh : String) (hinv : activeInv db) :
    activeInv (process_idle_choice db idleTime keep now fresh) := by
  unfold process_idle_choice
  cases hu : get_user db with
  | none => exact hinv
  | some u =>
    dsimp only
    cases hpid : u.currentProjectId with
    | none => exact hinv
    | some pid =>
      dsimp only
      cases hl : latestSession db pid with
      | none => exact activeInv_start_timer db now fresh hinv
      | some target =>
        refine activeInv_start_timer _ now fresh ?_
        refine activeInv_map db _ ?_ hinv
        intro pid2 a hfa
        by_cases hc : (a.id == target.id) = true
        · rw [if_pos hc] at hfa
          exact hfa
        · rw [if_neg hc] at hfa
          exact hfa

theorem deductedLeIdle_start_session (db : DB) (pid : String) (now : Int)
    (fresh : String) (hinv : deductedLeIdle db) :
    deductedLeIdle (start_session db pid now fresh) := by
  intro s hs
  rcases List.mem_append.mp hs with h | h
  · exact hinv s h
  · rw [List.mem_singleton] at h
    subst h
    norm_num

theorem deductedLeIdle_start_timer (db : DB) (now : Int) (fresh : String)
    (hinv : deductedLeIdle db) :
    deductedLeIdle (start_timer_internal db now fresh) := by
  unfold start_timer_internal
  cases hu : get_user db with
  | none => exact hinv
  | some u =>
    dsimp only
    cases hpid : u.currentProjectId with
    | none => exact hinv
    | some pid =>
      dsimp only
      cases hact : get_active_session db pid with
      | some s => exact hinv
      | none => exact deductedLeIdle_start_session db pid now fresh hinv

theorem deductedLeIdle_create_imported (db : DB) (ss : SyncSession)
    (hss : ss.deductedSeconds ≤ ss.idleSeconds) (hinv : deductedLeIdle db) :
    deductedLeIdle (create_imported_session db ss) := by
  intro s hs
  rcases List.mem_append.mp hs with h | h
  · exact hinv s h
  · rw [List.mem_singleton] at h
    subst h
    exact hss

theorem deductedLeIdle_update_imported (db : DB) (ss : SyncSession)
    (hss : ss.deductedSeconds ≤ ss.idleSeconds) (hinv : deductedLeIdle db) :
    deductedLeIdle (update_imported_session db ss) := by
  intro s hs
  rcases List.mem_map.mp hs with ⟨a, ha, rfl⟩
  by_cases hc : (a.uuid == ss.uuid) = true
  · rw [if_pos hc]
    exact hss
  · rw [if_neg hc]
    exact hinv a ha

theorem deductedLeIdle_process_idle (db : DB) (idleTime : Int)
    (hpos : 0 ≤ idleTime) (keep : Bool) (now : Int) (fresh : String)
    (hinv : deductedLeIdle db) :
    deductedLeIdle (process_idle_choice db idleTime keep now fresh) := by
  unfold process_idle_choice
  cases hu : get_user db with
  | none => exact hinv
  | some u =>
    dsimp only
    cases hpid : u.currentProjectId with
    | none => exact hinv
    | some pid =>
      dsimp only
      cases hl : latestSession db pid with
      | none => exact deductedLeIdle_start_timer db now fresh hinv
      | some target =>
        refine deductedLeIdle_start_timer _ now fresh ?_
        intro s hs
        rcases List.mem_map.mp hs with ⟨a, ha, rfl⟩
        by_cases hc : (a.id == target.id) = true
        · rw [if_pos hc]
          have hai := hinv a ha
          show a.deductedSeconds + (if !keep then idleTime else 0) ≤
            a.idleSeconds + idleTime
          cases keep <;> simp <;> omega
        · rw [if_neg hc]
          exact hinv a ha

theorem commitSync_eq (db : DB) (syncedUuids : List String)
    (uploadedIds : List Int) :
    commitSync db syncedUuids uploadedIds =
      uploadedIds.foldl (fun d i => delete_screenshot d i)
        (syncedUuids.foldl
          (fun d u => delete_activity_logs_for_session (markSessionDone d u) u)
          db) := rfl

theorem foldl_delete_screenshot_pending (ids : List Int) (db : DB) :
    (ids.foldl (fun d i => delete_screenshot d i) db).pendingScreenshots =
      db.pendingScreenshots.filter (fun sc => !(ids.contains sc.id)) := by
  induction ids generalizing db with
  | nil => simp
  | cons i rest ih =>
    rw [List.foldl_cons, ih]
    show (db.pendingScreenshots.filter (fun sc => !(sc.id == i))).filter
        (fun sc => !(rest.contains sc.id)) = _
    refine filter_filter_eq_filter _ _ _ _ (fun a => ?_)
    by_cases h : a.id = i <;> simp [List.contains_cons, h]

theorem foldl_delete_screenshot_frame (ids : List Int) (db : DB) :
    (ids.foldl (fun d i => delete_screenshot d i) db).sessions = db.sessions ∧
    (ids.foldl (fun d i => delete_screenshot d i) db).activityLogs =
      db.activityLogs ∧
    (ids.foldl (fun d i => delete_screenshot d i) db).users = db.users ∧
    (ids.foldl (fun d i => delete_screenshot d i) db).projects = db.projects := by
  induction ids generalizing db with
  | nil => exact ⟨rfl, rfl, rfl, rfl⟩
  | cons i rest ih =>
    rw [List.foldl_cons]
    exact ih (delete_screenshot db i)

theorem foldl_mark_done_sessions (uuids : List String) (db : DB) :
    (uuids.foldl
        (fun d u => delete_activity_logs_for_session (markSessionDone d u) u)
        db).sessions =
      db.sessions.map (fun s =>
        if uuids.contains s.uuid then { s with status := "done" } else s) := by
  induction uuids generalizing db with
  | nil => simp
  | cons u rest ih =>
    rw [List.foldl_cons, ih]
    show (db.sessions.map
        (fun s => if s.uuid == u then { s with status := "done" } else s)).map
        (fun s => if rest.contains s.uuid then { s with status := "done" } else s) = _
    refine map_map_eq_map _ _ _ _ (fun a => ?_)
    by_cases h1 : a.uuid = u <;> by_cases h2 : a.uuid ∈ rest <;>
      simp [List.contains_cons, h1, h2]

theorem foldl_mark_done_logs (uuids : List String) (db : DB) :
    (uuids.foldl
        (fun d u => delete_activity_logs_for_session (markSessionDone d u) u)
        db).activityLogs =
      db.activityLogs.filter (fun lg => !(uuids.contains lg.sessionUuid)) := by
  induction uuids generalizing db with
  | nil => simp
  | cons u rest ih =>
    rw [List.foldl_cons, ih]
    show (db.activityLogs.filter (fun lg => !(lg.sessionUuid == u))).filter
        (fun lg => !(rest.contains lg.sessionUuid)) = _
    refine filter_filter_eq_filter _ _ _ _ (fun a => ?_)
    by_cases h : a.sessionUuid = u <;> simp [List.contains_cons, h]

theorem foldl_mark_done_frame (uuids : List String) (db : DB) :
    (uuids.foldl
        (fun d u => delete_activity_logs_for_session (markSessionDone d u) u)
        db).pendingScreenshots = db.pendingScreenshots ∧
    (uuids.foldl
        (fun d u => delete_activity_logs_for_session (markSessionDone d u) u)
        db).users = db.users ∧
    (uuids.foldl
        (fun d u => delete_activity_logs_for_session (markSessionDone d u) u)
        db).projects = db.projects := by
  induction uuids generalizing db with
  | nil => exact ⟨rfl, rfl, rfl⟩
  | cons u rest ih =>
    rw [List.foldl_cons]
    exact ih (delete_activity_logs_for_session (markSessionDone db u) u)

/-- A screenshot of the pending table is in the collected upload results
exactly when its own upload succeeded. -/
theorem contains_screenshotUploadResults (pending : List PendingScreenshot)
    (ok : Int → Bool) (sc : PendingScreenshot) (hsc : sc ∈ pending) :
    (screenshotUploadResults pending ok).contains sc.id = ok sc.id := by
  unfold screenshotUploadResults
  cases h : ok sc.id with
  | true =>
    have hmem : sc.id ∈ (pending.filter (fun t => ok t.id)).map (fun t => t.id) :=
      List.mem_map_of_mem _ (List.mem_filter.mpr ⟨hsc, h⟩)
    exact List.elem_iff.mpr hmem
  | false =>
    cases hc : ((pending.filter (fun t => ok t.id)).map
        (fun t => t.id)).contains sc.id with
    | false => rfl
    | true =>
      exfalso
      have hmem : sc.id ∈ (pending.filter (fun t => ok t.id)).map (fun t => t.id) :=
        List.elem_iff.mp hc
      rcases List.mem_map.mp hmem with ⟨t, ht, htid⟩
      have hok : ok t.id = true := (List.mem_filter.mp ht).2
      rw [htid, h] at hok
      exact Bool.false_ne_true hok

/-- The accumulator-based maximum selection of `latestSession` only ever
returns an element of the list or the initial accumulator. -/
theorem foldl_choice_mem {l : List Session} {acc : Option Session} {t : Session}
    (h : l.foldl (fun acc s =>
        match acc with
        | none => some s
        | some b => if s.startTime > b.startTime then some s else some b)
        acc = some t) :
    t ∈ l ∨ acc = some t := by
  induction l generalizing acc with
  | nil => exact Or.inr h
  | cons a rest ih =>
    rw [List.foldl_cons] at h
    rcases ih h with hmem | hacc
    · exact Or.inl (List.mem_cons_of_mem a hmem)
    · cases acc with
      | none =>
        dsimp only at hacc
        rw [Option.some.injEq] at hacc
        exact Or.inl (by rw [← hacc]; exact List.mem_cons_self a rest)
      | some b =>
        dsimp only at hacc
        by_cases hc : a.startTime > b.startTime
        · rw [if_pos hc, Option.some.injEq] at hacc
          exact Or.inl (by rw [← hacc]; exact List.mem_cons_self a rest)
        · rw [if_neg hc] at hacc
          exact Or.inr hacc

/-- A session returned by `latestSession` is a row of the table for the
requested project. -/
theorem latestSession_mem {db : DB} {pid : String} {target : Session}
    (h : latestSession db pid = some target) :
    target ∈ db.sessions ∧ target.projectId = pid := by
  unfold latestSession at h
  rcases foldl_choice_mem h with hmem | hacc
  · rw [List.mem_filter] at hmem
    exact ⟨hmem.1, by simpa using hmem.2⟩
  · exact Option.noConfusion hacc

/-- `start_timer_internal` either leaves the session table unchanged or
appends one fresh active session. -/
theorem start_timer_sessions_cases (db : DB) (now : Int) (fresh : String) :
    (start_timer_internal db now fresh).sessions = db.sessions ∨
    ∃ pid : String, (start_timer_internal db now fresh).sessions =
      db.sessions ++
        [{ id := db.nextSessionId, uuid := fresh, projectId := pid,
           startTime := now, endTime := none, isActive := true,
           idleSeconds := 0, deductedSeconds := 0, status := "pending",
           keyboardEvents := 0, mouseEvents := 0 }] := by
  unfold start_timer_internal
  cases hu : get_user db with
  | none => exact Or.inl rfl
  | some u =>
    dsimp only
    cases hpid : u.currentProjectId with
    | none => exact Or.inl rfl
    | some pid =>
      dsimp only
      cases hact : get_active_session db pid with
      | some s => exact Or.inl rfl
      | none => exact Or.inr ⟨pid, rfl⟩

/-- After `start_timer_internal` runs for a cached user whose current project
is `pid`, some session of `pid` is active. -/
theorem start_timer_active_isSome (db : DB) (u : User) (pid : String)
    (now : Int) (fresh : String)
    (hu : get_user db = some u) (hpid : u.currentProjectId = some pid) :
    (get_active_session (start_timer_internal db now fresh) pid).isSome =
      true := by
  unfold start_timer_internal
  rw [hu]
  dsimp only
  rw [hpid]
  dsimp only
  cases hact : get_active_session db pid with
  | some s =>
    dsimp only
    rw [hact]
    rfl
  | none =>
    dsimp only
    rw [get_active_session_start db pid now fresh hact]
    rfl

theorem ite_neg_eq_max (x : Int) : (if x < 0 then 0 else x) = max 0 x := by
  rcases le_or_lt 0 x with h | h
  · rw [if_neg (not_lt.mpr h), max_eq_right h]
  · rw [if_pos h, max_eq_left (le_of_lt h)]

theorem ite_pos_sub_eq_max (a b : Int) :
    (if a > b then a - b else 0) = max 0 (a - b) := by
  rcases lt_or_le b a with h | h
  · rw [if_pos h, max_eq_right (le_of_lt (sub_pos.mpr h))]
  · rw [if_neg (not_lt.mpr h), max_eq_left (sub_nonpos.mpr h)]

theorem ite_lt_eq_max (x d : Int) :
    (if x < d then 0 else x - d) = max 0 (x - d) := by
  rcases lt_or_le x d with h | h
  · rw [if_pos h, max_eq_left (le_of_lt (sub_neg.mpr h))]
  · rw [if_neg (not_lt.mpr h), max_eq_right (sub_nonneg.mpr h)]

theorem ite_zero_lt_eq_max (d : Int) :
    (if 0 < d then 0 else -d) = max 0 (-d) := by
  rcases lt_or_le 0 d with h | h
  · rw [if_pos h, max_eq_left (le_of_lt (neg_neg_of_pos h))]
  · rw [if_neg (not_lt.mpr h), max_eq_right (neg_nonneg.mpr h)]

theorem foldl_add_eq_sum (g : Session → Int) (l : List Session) (init : Int) :
    l.foldl (fun t s => t + g s) init = init + (l.map g).sum := by
  induction l generalizing init with
  | nil => simp
  | cons a rest ih =>
    rw [List.foldl_cons, ih]
    rw [List.map_cons, List.sum_cons, add_assoc]

theorem map_congr_fun {α β : Type} (f g : α → β) (l : List α)
    (h : ∀ a, f a = g a) : l.map f = l.map g := by
  induction l with
  | nil => rfl
  | cons a t ih => simp [h a, ih]

/-! ## Claims -/

/-- Claim C1 (code divergence): `get_pending_sessions` executes
`SELECT ... FROM sessions` with no `WHERE` clause, so on a database whose only
session row has `status = 'done'`, the bulk-upload batch contains that row —
the claim requires the read to return exactly the rows with
`status = 'pending'`, i.e. the empty list here. -/
theorem c1_pending_read_returns_done_row :
    get_pending_sessions dbDoneOnly = [doneSessionA] ∧
      doneSessionA.status = "done" :=
  ⟨rfl, rfl⟩

/-- Claim C10: `clear_user` deletes exactly the users, projects and sessions
rows; the pending-screenshots and activity-logs outbox tables are untouched,
so queued evidence survives both the explicit logout and the forced logout
after a failed auth refresh (both call `clear_user`). -/
theorem c10_clear_user_frame (db : DB) :
    (clear_user db).pendingScreenshots = db.pendingScreenshots ∧
    (clear_user db).activityLogs = db.activityLogs ∧
    (clear_user db).nextSessionId = db.nextSessionId ∧
    (clear_user db).users = [] ∧
    (clear_user db).projects = [] ∧
    (clear_user db).sessions = [] :=
  ⟨rfl, rfl, rfl, rfl, rfl, rfl⟩

/-- Claim C2 counterexample: a remote session with a missing end.  The claim's
remote duration (`now − start` = 1000000) strictly exceeds the local duration
(100), so the claim mandates an overwrite; the source computes the remote
duration as `0` for a missing remote end and leaves the database unchanged. -/
theorem c2_counterexample :
    serverEstimatedDuration_claim remoteOpen 1000000 >
        localEstimatedDuration localShort 1000000 ∧
      get_session_by_uuid dbLocalShort remoteOpen.uuid = some localShort ∧
      reconcileSession dbLocalShort remoteOpen 1000000 = dbLocalShort := by
  refine ⟨by decide, by decide, by decide⟩

/-- Claim C2 (amended): for a remote session whose uuid matches a local row,
the local row is overwritten (all merge fields copied, status set to done)
if and only if the remote estimated duration — `end − start` when the remote
end is present, `0` when it is missing — strictly exceeds the local estimated
duration (`end − start`, with "now" substituted for a missing local end);
otherwise the database is unchanged. -/
theorem c2_amended (db : DB) (ss : SyncSession) (now : Int) (loc : Session)
    (hloc : get_session_by_uuid db ss.uuid = some loc) :
    (serverEstimatedDuration ss > localEstimatedDuration loc now →
        reconcileSession db ss now = update_imported_session db ss ∧
        ∀ s ∈ (reconcileSession db ss now).sessions, s.uuid = ss.uuid →
          s.startTime = ss.startTime ∧ s.endTime = ss.endTime ∧
          s.isActive = ss.isActive ∧ s.idleSeconds = ss.idleSeconds ∧
          s.deductedSeconds = ss.deductedSeconds ∧ s.status = "done") ∧
    (¬ serverEstimatedDuration ss > localEstimatedDuration loc now →
        reconcileSession db ss now = db) := by
  unfold reconcileSession
  rw [hloc]
  dsimp only
  constructor
  · intro hgt
    rw [if_pos hgt]
    refine ⟨rfl, ?_⟩
    intro s hs hsu
    rcases List.mem_map.mp hs with ⟨a, ha, rfl⟩
    by_cases hc : (a.uuid == ss.uuid) = true
    · rw [if_pos hc]
      exact ⟨rfl, rfl, rfl, rfl, rfl, rfl⟩
    · rw [if_neg hc] at hsu
      exact absurd (beq_iff_eq.mpr hsu) hc
  · intro hle
    rw [if_neg hle]

/-- Witness for `c2_amended` at a concrete database. -/
theorem c2_amended_witness :
    get_session_by_uuid dbLocalShort remoteLong.uuid = some localShort ∧
    ((serverEstimatedDuration remoteLong >
          localEstimatedDuration localShort 1000 →
        reconcileSession dbLocalShort remoteLong 1000 =
          update_imported_session dbLocalShort remoteLong ∧
        ∀ s ∈ (reconcileSession dbLocalShort remoteLong 1000).sessions,
          s.uuid = remoteLong.uuid →
            s.startTime = remoteLong.startTime ∧
            s.endTime = remoteLong.endTime ∧
            s.isActive = remoteLong.isActive ∧
            s.idleSeconds = remoteLong.idleSeconds ∧
            s.deductedSeconds = remoteLong.deductedSeconds ∧
            s.status = "done") ∧
     (¬ serverEstimatedDuration remoteLong >
          localEstimatedDuration localShort 1000 →
        reconcileSession dbLocalShort remoteLong 1000 = dbLocalShort)) :=
  ⟨by decide, c2_amended dbLocalShort remoteLong 1000 localShort (by decide)⟩

/-- Claim C3 counterexample: bulk upload answers 401, the refresh succeeds
with a new token, and the retried upload fails with a non-2xx status.  The
claim mandates a logout signal, a state wipe and an aborted cycle; the source
merely leaves the batch unsynced and continues. -/
theorem c3_counterexample :
    (bulkSessionSync [activeSessionA] .unauthorized (.okToken "t2")
        .otherStatus).retryAttempts = 1 ∧
    (bulkSessionSync [activeSessionA] .unauthorized (.okToken "t2")
        .otherStatus).syncedUuids = [] ∧
    (bulkSessionSync [activeSessionA] .unauthorized (.okToken "t2")
        .otherStatus).logoutEmitted = false ∧
    (bulkSessionSync [activeSessionA] .unauthorized (.okToken "t2")
        .otherStatus).userCleared = false ∧
    (bulkSessionSync [activeSessionA] .unauthorized (.okToken "t2")
        .otherStatus).abortedCycle = false := by
  refine ⟨rfl, rfl, rfl, rfl, rfl⟩

/-- Claim C3 (amended): on a nonempty batch, exactly one token refresh is
attempted if and only if the first upload returned 401; on a refresh response
carrying a token the new token is persisted and the same batch is retried
exactly once; logout, local state wipe and cycle abort happen if and only if
the refresh endpoint responded with a non-success status; and the batch
counts as synced exactly when the first upload returned 2xx or the retry
after a token-carrying refresh did — a failed retry, a refresh transport
error, or a token-less refresh body leave the batch unsynced and the cycle
running. -/
theorem c3_amended (pending : List Session) (first : HttpOutcome)
    (refresh : RefreshOutcome) (retry : HttpOutcome) (hne : pending ≠ []) :
    ((bulkSessionSync pending first refresh retry).refreshAttempts = 1 ↔
        first = HttpOutcome.unauthorized) ∧
    (∀ t : String, first = HttpOutcome.unauthorized →
        refresh = RefreshOutcome.okToken t →
        (bulkSessionSync pending first refresh retry).persistedToken = some t ∧
        (bulkSessionSync pending first refresh retry).retryAttempts = 1) ∧
    ((bulkSessionSync pending first refresh retry).logoutEmitted = true ∧
        (bulkSessionSync pending first refresh retry).userCleared = true ∧
        (bulkSessionSync pending first refresh retry).abortedCycle = true ↔
      first = HttpOutcome.unauthorized ∧ refresh = RefreshOutcome.badStatus) ∧
    ((bulkSessionSync pending first refresh retry).syncedUuids =
        pending.map (fun s => s.uuid) ↔
      first = HttpOutcome.success ∨
        (first = HttpOutcome.unauthorized ∧
          (∃ t, refresh = RefreshOutcome.okToken t) ∧
          retry = HttpOutcome.success)) := by
  have hpe : pending.isEmpty = false := by
    cases pending
    · exact absurd rfl hne
    · rfl
  have hmapne : ¬ ([] : List String) = pending.map (fun s => s.uuid) := by
    intro h
    exact hne (List.map_eq_nil_iff.mp h.symm)
  unfold bulkSessionSync
  rw [hpe]
  cases first <;> cases refresh <;> cases retry <;>
    simp_all

/-- Witness for `c3_amended` at concrete inputs: the logout path, where the
refresh endpoint answers with a failure status. -/
theorem c3_amended_witness :
    ([activeSessionA] : List Session) ≠ [] ∧
    (((bulkSessionSync [activeSessionA] HttpOutcome.unauthorized
          RefreshOutcome.badStatus HttpOutcome.netError).refreshAttempts = 1 ↔
        HttpOutcome.unauthorized = HttpOutcome.unauthorized) ∧
     (∀ t : String, HttpOutcome.unauthorized = HttpOutcome.unauthorized →
        RefreshOutcome.badStatus = RefreshOutcome.okToken t →
        (bulkSessionSync [activeSessionA] HttpOutcome.unauthorized
            RefreshOutcome.badStatus HttpOutcome.netError).persistedToken = some t ∧
        (bulkSessionSync [activeSessionA] HttpOutcome.unauthorized
            RefreshOutcome.badStatus HttpOutcome.netError).retryAttempts = 1) ∧
     ((bulkSessionSync [activeSessionA] HttpOutcome.unauthorized
          RefreshOutcome.badStatus HttpOutcome.netError).logoutEmitted = true ∧
        (bulkSessionSync [activeSessionA] HttpOutcome.unauthorized
            RefreshOutcome.badStatus HttpOutcome.netError).userCleared = true ∧
        (bulkSessionSync [activeSessionA] HttpOutcome.unauthorized
            RefreshOutcome.badStatus HttpOutcome.netError).abortedCycle = true ↔
      HttpOutcome.unauthorized = HttpOutcome.unauthorized ∧
        RefreshOutcome.badStatus = RefreshOutcome.badStatus) ∧
     ((bulkSessionSync [activeSessionA] HttpOutcome.unauthorized
          RefreshOutcome.badStatus HttpOutcome.netError).syncedUuids =
        [activeSessionA].map (fun s => s.uuid) ↔
      HttpOutcome.unauthorized = HttpOutcome.success ∨
        (HttpOutcome.unauthorized = HttpOutcome.unauthorized ∧
          (∃ t, RefreshOutcome.badStatus = RefreshOutcome.okToken t) ∧
          HttpOutcome.netError = HttpOutcome.success))) :=
  ⟨by decide,
   c3_amended [activeSessionA] HttpOutcome.unauthorized RefreshOutcome.badStatus
     HttpOutcome.netError (by decide)⟩

/-- Claim C4 counterexample: a database satisfying the single-active-session
invariant, plus one pull-reconciliation import of a remote session that is
flagged active for the same project.  `create_imported_session` copies the
remote `is_active` verbatim, leaving two active rows for project `"p"`. -/
theorem c4_counterexample :
    activeInv dbOneActive ∧
      ¬ activeInv (create_imported_session dbOneActive remoteActiveB) := by
  constructor
  · intro pid
    exact le_trans (List.length_filter_le _ _) (by simp [dbOneActive])
  · intro h
    exact absurd (h "p") (by decide)

/-- Claim C4 (amended): at most one Session row per project has
`active = true`, and this invariant is preserved by every session-writing
operation of the engine itself — start, stop, heartbeat, rotation and the
idle-choice adjustment — but not by pull-reconciliation imports, which copy
the remote active flag verbatim. -/
theorem c4_amended (db : DB) (hinv : activeInv db) (pid fresh : String)
    (now nowHb k m sid idleTime : Int) (keep : Bool) :
    activeInv (start_timer_internal db now fresh) ∧
    activeInv (stop_session db pid now) ∧
    activeInv (stop_timer_internal db now) ∧
    activeInv (update_session_heartbeat db sid nowHb k m) ∧
    activeInv (heartbeatTick db pid now fresh k m nowHb) ∧
    activeInv (process_idle_choice db idleTime keep now fresh) :=
  ⟨activeInv_start_timer db now fresh hinv,
   activeInv_stop_session db pid now hinv,
   activeInv_stop_timer db now hinv,
   activeInv_update_heartbeat db sid nowHb k m hinv,
   activeInv_heartbeatTick db pid now fresh k m nowHb hinv,
   activeInv_process_idle db idleTime keep now fresh hinv⟩

/-- Witness for `c4_amended` at a concrete database. -/
theorem c4_amended_witness :
    activeInv dbUserActive ∧
    (activeInv (start_timer_internal dbUserActive 1000 "w") ∧
     activeInv (stop_session dbUserActive "p" 1000) ∧
     activeInv (stop_timer_internal dbUserActive 1000) ∧
     activeInv (update_session_heartbeat dbUserActive 1 1001 2 3) ∧
     activeInv (heartbeatTick dbUserActive "p" 1000 "w" 2 3 1001) ∧
     activeInv (process_idle_choice dbUserActive 400 true 1000 "w")) := by
  have hinv : activeInv dbUserActive := by
    intro pid
    exact le_trans (List.length_filter_le _ _) (by norm_num [dbUserActive])
  exact ⟨hinv, c4_amended dbUserActive hinv "p" "w" 1000 1001 2 3 1 400 true⟩

/-- Claim C5 counterexample: importing a remote session that carries
`deducted_seconds = 5 > idle_seconds = 0` into an empty store.
`create_imported_session` copies both values verbatim, so the resulting row
violates `deducted_seconds ≤ idle_seconds`. -/
theorem c5_counterexample :
    deductedLeIdle dbEmpty ∧
      ¬ deductedLeIdle (create_imported_session dbEmpty remoteBadBookkeeping) := by
  unfold deductedLeIdle
  refine ⟨by decide, by decide⟩

/-- Claim C5 (amended): `deducted_seconds ≤ idle_seconds` holds after session
creation (both counters zero) and is preserved by every idle keep/discard
adjustment with a nonnegative gap (`idle_seconds` grows by the gap,
`deducted_seconds` by at most the same amount); an import or overwrite from
the server preserves it exactly when the remote row itself satisfies
`deducted_seconds ≤ idle_seconds`, because both values are copied verbatim. -/
theorem c5_amended (db : DB) (hinv : deductedLeIdle db) (pid fresh : String)
    (now idleTime : Int) (hpos : 0 ≤ idleTime) (keep : Bool)
    (ss : SyncSession) (hss : ss.deductedSeconds ≤ ss.idleSeconds) :
    deductedLeIdle (start_session db pid now fresh) ∧
    deductedLeIdle (process_idle_choice db idleTime keep now fresh) ∧
    deductedLeIdle (create_imported_session db ss) ∧
    deductedLeIdle (update_imported_session db ss) :=
  ⟨deductedLeIdle_start_session db pid now fresh hinv,
   deductedLeIdle_process_idle db idleTime hpos keep now fresh hinv,
   deductedLeIdle_create_imported db ss hss hinv,
   deductedLeIdle_update_imported db ss hss hinv⟩

/-- Witness for `c5_amended` at a concrete database. -/
theorem c5_amended_witness :
    deductedLeIdle dbUserActive ∧ (0 : Int) ≤ 400 ∧
    remoteLong.deductedSeconds ≤ remoteLong.idleSeconds ∧
    (deductedLeIdle (start_session dbUserActive "p" 1000 "w") ∧
     deductedLeIdle (process_idle_choice dbUserActive 400 false 1000 "w") ∧
     deductedLeIdle (create_imported_session dbUserActive remoteLong) ∧
     deductedLeIdle (update_imported_session dbUserActive remoteLong)) := by
  have hinv : deductedLeIdle dbUserActive := by
    unfold deductedLeIdle
    decide
  exact ⟨hinv, by norm_num, by decide,
    c5_amended dbUserActive hinv "p" "w" 1000 400 (by norm_num) false
      remoteLong (by decide)⟩

/-- Claim C6: the commit step (one transaction) marks exactly the sessions
whose uuid was acknowledged as done, deletes exactly their activity logs, and
deletes exactly the screenshots whose individual upload returned 2xx; every
other row — failed screenshots, unacknowledged sessions, their logs, and the
user/project tables — is left untouched, so local evidence is deleted only
after remote confirmation. -/
theorem c6_commit_exactness (db : DB) (acked : List String) (ok : Int → Bool) :
    (commitSync db acked
        (screenshotUploadResults db.pendingScreenshots ok)).pendingScreenshots =
      db.pendingScreenshots.filter (fun sc => !(ok sc.id)) ∧
    (commitSync db acked
        (screenshotUploadResults db.pendingScreenshots ok)).sessions =
      db.sessions.map (fun s =>
        if acked.contains s.uuid then { s with status := "done" } else s) ∧
    (commitSync db acked
        (screenshotUploadResults db.pendingScreenshots ok)).activityLogs =
      db.activityLogs.filter (fun lg => !(acked.contains lg.sessionUuid)) ∧
    (commitSync db acked
        (screenshotUploadResults db.pendingScreenshots ok)).users = db.users ∧
    (commitSync db acked
        (screenshotUploadResults db.pendingScreenshots ok)).projects =
      db.projects := by
  rw [commitSync_eq]
  refine ⟨?_, ?_, ?_, ?_, ?_⟩
  · rw [foldl_delete_screenshot_pending, (foldl_mark_done_frame acked db).1]
    refine List.filter_congr (fun sc hsc => ?_)
    rw [contains_screenshotUploadResults db.pendingScreenshots ok sc hsc]
  · rw [(foldl_delete_screenshot_frame _ _).1, foldl_mark_done_sessions]
  · rw [(foldl_delete_screenshot_frame _ _).2.1, foldl_mark_done_logs]
  · rw [(foldl_delete_screenshot_frame _ _).2.2.1,
      (foldl_mark_done_frame acked db).2.1]
  · rw [(foldl_delete_screenshot_frame _ _).2.2.2,
      (foldl_mark_done_frame acked db).2.2]

/-- Claim C7: on a heartbeat tick where `now − start` of the active session
exceeds the 10-minute threshold, the session is closed (`active = false`,
`end = now`), a fresh active session for the same project is inserted with
idle, deducted, keyboard and mouse counters all zero, and the heartbeat
(`end = nowHb`, the just-reset counters) is then applied to the new session;
in the resulting table every row carrying the old session id is closed with
`end = now`. -/
theorem c7_rotation (db : DB) (pid fresh : String) (now nowHb k m : Int)
    (s : Session)
    (hwf : ∀ t ∈ db.sessions, t.id ≠ db.nextSessionId)
    (hnodup : (db.sessions.map (fun t => t.id)).Nodup)
    (hact : get_active_session db pid = some s)
    (hgap : now - s.startTime > rotationThresholdMillis) :
    heartbeatTick db pid now fresh k m nowHb =
      { db with
        sessions :=
          db.sessions.map (fun t =>
            if t.projectId == pid && t.isActive then
              { t with isActive := false, endTime := some now }
            else t) ++
          [{ id := db.nextSessionId, uuid := fresh, projectId := pid,
             startTime := now, endTime := some nowHb, isActive := true,
             idleSeconds := 0, deductedSeconds := 0, status := "pending",
             keyboardEvents := 0, mouseEvents := 0 }],
        nextSessionId := db.nextSessionId + 1 } ∧
    (∀ t ∈ (heartbeatTick db pid now fresh k m nowHb).sessions,
        t.id = s.id → t.isActive = false ∧ t.endTime = some now) := by
  have hge : now - s.startTime ≥ rotationThresholdMillis := le_of_lt hgap
  rcases get_active_session_mem hact with ⟨hsmem, hsproj, hsactive⟩
  have hidfix : ∀ a : Session,
      (if (a.projectId == pid && a.isActive) = true then
        { a with isActive := false, endTime := some now } else a).id = a.id := by
    intro a
    by_cases hc : (a.projectId == pid && a.isActive) = true
    · rw [if_pos hc]
    · rw [if_neg hc]
  have hmain : heartbeatTick db pid now fresh k m nowHb =
      { db with
        sessions :=
          db.sessions.map (fun t =>
            if t.projectId == pid && t.isActive then
              { t with isActive := false, endTime := some now }
            else t) ++
          [{ id := db.nextSessionId, uuid := fresh, projectId := pid,
             startTime := now, endTime := some nowHb, isActive := true,
             idleSeconds := 0, deductedSeconds := 0, status := "pending",
             keyboardEvents := 0, mouseEvents := 0 }],
        nextSessionId := db.nextSessionId + 1 } := by
    unfold heartbeatTick
    rw [hact]
    dsimp only
    rw [if_pos hge]
    rw [get_active_session_start (stop_session db pid now) pid now fresh
      (get_active_session_stop db pid now)]
    dsimp only
    unfold update_session_heartbeat start_session stop_session
    dsimp only
    congr 1
    rw [List.map_append]
    congr 1
    · refine map_eq_self_of_fix _ _ (fun t ht => ?_)
      rcases List.mem_map.mp ht with ⟨a, ha, rfl⟩
      have hne : ((if (a.projectId == pid && a.isActive) = true then
          { a with isActive := false, endTime := some now } else a).id ==
            db.nextSessionId) = false := by
        rw [hidfix a]
        exact beq_eq_false_iff_ne.mpr (hwf a ha)
      rw [if_neg (by rw [hne]; exact Bool.false_ne_true)]
    · simp
  refine ⟨hmain, ?_⟩
  intro t ht htid
  rw [hmain] at ht
  rcases List.mem_append.mp ht with h | h
  · rcases List.mem_map.mp h with ⟨a, ha, rfl⟩
    rw [hidfix a] at htid
    have has : a = s :=
      List.inj_on_of_nodup_map hnodup ha hsmem htid
    subst has
    have hcond : (a.projectId == pid && a.isActive) = true := by
      rw [hsproj, hsactive]
      simp
    rw [if_pos hcond]
    exact ⟨rfl, rfl⟩
  · rw [List.mem_singleton] at h
    subst h
    exact absurd htid.symm (hwf s hsmem)

/-- Witness for `c7_rotation` at a concrete database: a session started at 0
with a heartbeat at `now = 600001` ms, one past the 10-minute boundary. -/
theorem c7_rotation_witness :
    (∀ t ∈ dbOneActive.sessions, t.id ≠ dbOneActive.nextSessionId) ∧
    (dbOneActive.sessions.map (fun t => t.id)).Nodup ∧
    get_active_session dbOneActive "p" = some activeSessionA ∧
    (600001 : Int) - activeSessionA.startTime > rotationThresholdMillis ∧
    (heartbeatTick dbOneActive "p" 600001 "w" 7 8 600002 =
      { dbOneActive with
        sessions :=
          dbOneActive.sessions.map (fun t =>
            if t.projectId == "p" && t.isActive then
              { t with isActive := false, endTime := some 600001 }
            else t) ++
          [{ id := dbOneActive.nextSessionId, uuid := "w", projectId := "p",
             startTime := 600001, endTime := some 600002, isActive := true,
             idleSeconds := 0, deductedSeconds := 0, status := "pending",
             keyboardEvents := 0, mouseEvents := 0 }],
        nextSessionId := dbOneActive.nextSessionId + 1 } ∧
    (∀ t ∈ (heartbeatTick dbOneActive "p" 600001 "w" 7 8 600002).sessions,
        t.id = activeSessionA.id →
          t.isActive = false ∧ t.endTime = some 600001)) := by
  refine ⟨by decide, by decide, by decide, by decide, ?_⟩
  exact c7_rotation dbOneActive "p" "w" 600001 600002 7 8 activeSessionA
    (by decide) (by decide) (by decide) (by decide)

/-- Claim C8: for an idle-gap decision with gap `d`, the most recently
started session of the user's current project gains `d` idle seconds in both
the keep and discard cases and gains `d` deducted seconds exactly when the
decision is discard; afterwards the timer is started again
(`start_timer_internal` is invoked on the adjusted store) and some session of
the project is active. -/
theorem c8_idle_adjustment (db : DB) (u : User) (pid fresh : String)
    (d now : Int) (keep : Bool) (target : Session)
    (hu : get_user db = some u) (hpid : u.currentProjectId = some pid)
    (hlatest : latestSession db pid = some target)
    (hwf : ∀ t ∈ db.sessions, t.id ≠ db.nextSessionId)
    (hnodup : (db.sessions.map (fun t => t.id)).Nodup) :
    process_idle_choice db d keep now fresh =
      start_timer_internal
        { db with
          sessions := db.sessions.map (fun s =>
            if s.id == target.id then
              { s with idleSeconds := s.idleSeconds + d,
                       deductedSeconds :=
                         s.deductedSeconds + (if !keep then d else 0) }
            else s) } now fresh ∧
    (∀ t ∈ (process_idle_choice db d keep now fresh).sessions,
        t.id = target.id →
          t.idleSeconds = target.idleSeconds + d ∧
          t.deductedSeconds =
            target.deductedSeconds + (if keep then 0 else d)) ∧
    (get_active_session (process_idle_choice db d keep now fresh) pid).isSome =
      true := by
  rcases latestSession_mem hlatest with ⟨htm, htp⟩
  have hidfix : ∀ a : Session,
      (if (a.id == target.id) = true then
        { a with idleSeconds := a.idleSeconds + d,
                 deductedSeconds :=
                   a.deductedSeconds + (if !keep then d else 0) }
      else a).id = a.id := by
    intro a
    by_cases hc : (a.id == target.id) = true
    · rw [if_pos hc]
    · rw [if_neg hc]
  have hmain : process_idle_choice db d keep now fresh =
      start_timer_internal
        { db with
          sessions := db.sessions.map (fun s =>
            if s.id == target.id then
              { s with idleSeconds := s.idleSeconds + d,
                       deductedSeconds :=
                         s.deductedSeconds + (if !keep then d else 0) }
            else s) } now fresh := by
    unfold process_idle_choice
    rw [hu]
    dsimp only
    rw [hpid]
    dsimp only
    rw [hlatest]
  refine ⟨hmain, ?_, ?_⟩
  · intro t ht htid
    rw [hmain] at ht
    rcases start_timer_sessions_cases
        { db with
          sessions := db.sessions.map (fun s =>
            if s.id == target.id then
              { s with idleSeconds := s.idleSeconds + d,
                       deductedSeconds :=
                         s.deductedSeconds + (if !keep then d else 0) }
            else s) } now fresh with hsame | ⟨pid2, happ⟩
    · rw [hsame] at ht
      rcases List.mem_map.mp ht with ⟨a, ha, rfl⟩
      rw [hidfix a] at htid
      have has : a = target := List.inj_on_of_nodup_map hnodup ha htm htid
      subst has
      rw [if_pos (beq_self_eq_true a.id)]
      cases keep <;> exact ⟨rfl, rfl⟩
    · rw [happ] at ht
      rcases List.mem_append.mp ht with h | h
      · rcases List.mem_map.mp h with ⟨a, ha, rfl⟩
        rw [hidfix a] at htid
        have has : a = target := List.inj_on_of_nodup_map hnodup ha htm htid
        subst has
        rw [if_pos (beq_self_eq_true a.id)]
        cases keep <;> exact ⟨rfl, rfl⟩
      · rw [List.mem_singleton] at h
        subst h
        exact absurd htid (fun heq => hwf target htm heq.symm)
  · rw [hmain]
    exact start_timer_active_isSome _ u pid now fresh hu hpid

/-- Witness for `c8_idle_adjustment` at a concrete database: a 400-second
discarded idle gap for project `"p"`. -/
theorem c8_idle_adjustment_witness :
    get_user dbUserActive = some userP ∧
    userP.currentProjectId = some "p" ∧
    latestSession dbUserActive "p" = some activeSessionA ∧
    (∀ t ∈ dbUserActive.sessions, t.id ≠ dbUserActive.nextSessionId) ∧
    (dbUserActive.sessions.map (fun t => t.id)).Nodup ∧
    (process_idle_choice dbUserActive 400 false 1000 "w" =
      start_timer_internal
        { dbUserActive with
          sessions := dbUserActive.sessions.map (fun s =>
            if s.id == activeSessionA.id then
              { s with idleSeconds := s.idleSeconds + 400,
                       deductedSeconds :=
                         s.deductedSeconds + (if !false then 400 else 0) }
            else s) } 1000 "w" ∧
    (∀ t ∈ (process_idle_choice dbUserActive 400 false 1000 "w").sessions,
        t.id = activeSessionA.id →
          t.idleSeconds = activeSessionA.idleSeconds + 400 ∧
          t.deductedSeconds =
            activeSessionA.deductedSeconds + (if false then 0 else 400)) ∧
    (get_active_session (process_idle_choice dbUserActive 400 false 1000 "w")
        "p").isSome = true) := by
  refine ⟨by decide, by decide, by decide, by decide, by decide, ?_⟩
  exact c8_idle_adjustment dbUserActive userP "p" "w" 400 1000 false
    activeSessionA (by decide) (by decide) (by decide) (by decide) (by decide)

/-- Claim C9 counterexample: a closed one-second session whose start lies far
beyond the current local calendar day (`startOfDay = 0`, day length
86400000 ms).  The claim's sum over sessions starting within the day is `0`,
but the source only filters `start_time >= start_of_day` and returns `1`. -/
theorem c9_counterexample :
    get_today_total_time dbFuture "p" 0 0 = 1 ∧
      today_total_claim dbFuture "p" 0 0 = 0 := by
  refine ⟨by decide, by decide⟩

/-- Claim C9 (amended): the today-total is the sum, over all sessions of the
project whose start timestamp is at or after the start of the current local
calendar day (there is no upper day bound, so later starts are included too),
of `max(0, dur/1000 − deducted_seconds)` whole seconds, where `dur` is
`max(0, now − start)` for a still-active session, `max(0, end − start)` for a
closed session, and `0` for a closed session without an end timestamp. -/
theorem c9_amended (db : DB) (pid : String) (startOfDay now : Int) :
    get_today_total_time db pid startOfDay now =
      ((db.sessions.filter (fun s =>
          s.projectId == pid && decide (startOfDay ≤ s.startTime))).map
        (fun s =>
          max 0 ((if s.isActive then max 0 (now - s.startTime)
                  else
                    match s.endTime with
                    | some e => max 0 (e - s.startTime)
                    | none => 0) / 1000 - s.deductedSeconds))).sum := by
  unfold get_today_total_time
  rw [foldl_add_eq_sum, zero_add]
  refine congrArg List.sum (map_congr_fun _ _ _ (fun s => ?_))
  unfold todayAddend
  cases hA : s.isActive
  · cases hE : s.endTime with
    | none => simp [ite_zero_lt_eq_max]
    | some e => simp [ite_pos_sub_eq_max, ite_lt_eq_max]
  · simp [ite_pos_sub_eq_max, ite_lt_eq_max]

end Trackup
